/-
Verification of the authentication core of the habit-tracker web application.

The development shallowly embeds the TypeScript authentication code:
  * the credential hasher (`hashPassword` / `verifyPassword`, PBKDF2 variant),
  * the session store (`createSession` / `getSession` / `deleteSession` /
    `cleanupExpiredSessions`) over the `sessions` and `users` tables,
  * the Cloudflare Access assertion validator (`validateAccessJWT` with its
    module-level key cache `getPublicKeys`),
  * the session-cookie auth middleware from the router.

Modelling conventions:
  * JavaScript strings appearing in the hasher are embedded as `List Char`
    (one entry per code unit); `charCodeAt` becomes `Char.toNat`.
  * Bytes (`Uint8Array` cells) are `Nat` values; where the runtime coerces an
    arbitrary integer into a `Uint8Array` cell we take it modulo 256
    explicitly (`toUint8`).
  * The opaque cryptographic primitives (PBKDF2-SHA256 `deriveBits`, plain
    SHA-256 `digest`, RSA signature verification, network fetch of the JWK
    set) are parameters of the embedding: the surrounding code is verified
    for every choice of these functions.
  * A thrown JavaScript exception is an `Except` error value; `try/catch`
    blocks and SQL absence are explicit `Option`/`Except` plumbing.
  * SQLite timestamps (`expires_at`, `datetime('now')`) are abstracted to
    integers carrying the same ordering.
-/
import Mathlib

namespace HabitTracker

/-! ## Credential hasher (`src/utils/auth.ts`, PBKDF2 variant)

`hashPassword` produces `hex(salt) ++ ":" ++ hex(derivedKey)`;
`verifyPassword` re-derives and compares, with a legacy bare-SHA-256 path. -/

/-- The hexadecimal digit character for `n < 16`, lowercase, mirroring the
JavaScript `b.toString(16)` digits. -/
def hexDigit (n : Nat) : Char :=
  if n < 10 then Char.ofNat (48 + n) else Char.ofNat (87 + n)

/-- Embeds `b.toString(16).padStart(2, "0")` for a byte `b < 256`. -/
def byteToHex (b : Nat) : List Char :=
  [hexDigit (b / 16), hexDigit (b % 16)]

/-- Embeds `Array.from(bytes).map((b) => b.toString(16).padStart(2, "0")).join("")`. -/
def bytesToHex (bs : List Nat) : List Char :=
  (bs.map byteToHex).flatten

/-- JavaScript regular-expression line terminators (not matched by `.`). -/
def isLineTerm (c : Char) : Bool :=
  c = Char.ofNat 10 ∨ c = Char.ofNat 13 ∨ c.toNat = 0x2028 ∨ c.toNat = 0x2029

/-- Embeds `s.match(/.{2}/g)`: the greedy global scan collecting pairs of
adjacent non-line-terminator characters.  An empty result list models the
`null` return value of `match`. -/
def matchPairs : List Char → List (Char × Char)
  | [] => []
  | [_] => []
  | c1 :: c2 :: rest =>
    if isLineTerm c1 = false ∧ isLineTerm c2 = false then
      (c1, c2) :: matchPairs rest
    else
      matchPairs (c2 :: rest)

/-- Numeric value of a hexadecimal digit character, `none` otherwise
(both cases of `parseInt(_, 16)` digit recognition). -/
def hexCharVal (c : Char) : Option Nat :=
  if 48 ≤ c.toNat ∧ c.toNat ≤ 57 then some (c.toNat - 48)
  else if 97 ≤ c.toNat ∧ c.toNat ≤ 102 then some (c.toNat - 87)
  else if 65 ≤ c.toNat ∧ c.toNat ≤ 70 then some (c.toNat - 55)
  else none

/-- JavaScript `parseInt` leading-whitespace characters (the common ones). -/
def jsIsWhitespace (c : Char) : Bool :=
  c.toNat = 32 ∨ c.toNat = 9 ∨ c.toNat = 10 ∨ c.toNat = 11 ∨ c.toNat = 12 ∨
  c.toNat = 13 ∨ c.toNat = 160 ∨ c.toNat = 0x2028 ∨ c.toNat = 0x2029 ∨ c.toNat = 0xFEFF

/-- Optional sign handling of `parseInt`: returns (negative?, rest). -/
def parseSign (s : List Char) : Bool × List Char :=
  match s with
  | c :: r => if c = '-' then (true, r) else if c = '+' then (false, r) else (false, s)
  | [] => (false, [])

/-- Radix-16 `parseInt` strips a leading `0x` / `0X`. -/
def strip0x (s : List Char) : List Char :=
  match s with
  | c1 :: c2 :: r => if c1 = '0' ∧ (c2 = 'x' ∨ c2 = 'X') then r else s
  | _ => s

/-- Accumulates the maximal run of leading hex digits. -/
def hexRunAux : List Char → Nat → Nat
  | [], acc => acc
  | c :: rest, acc =>
    match hexCharVal c with
    | some v => hexRunAux rest (16 * acc + v)
    | none => acc

/-- Value of the maximal leading hex-digit run; `none` when it is empty. -/
def hexRunStart : List Char → Option Nat
  | [] => none
  | c :: rest =>
    match hexCharVal c with
    | some v => some (hexRunAux rest v)
    | none => none

/-- Embeds `parseInt(s, 16)`, with `none` for `NaN`: skip whitespace, read an
optional sign, strip a `0x` prefix, then take the leading hex-digit run. -/
def jsParseIntHex (s : List Char) : Option Int :=
  match hexRunStart (strip0x (parseSign (s.dropWhile jsIsWhitespace)).2) with
  | none => none
  | some v =>
    some (if (parseSign (s.dropWhile jsIsWhitespace)).1 then -(v : Int) else (v : Int))

/-- Storing an integer (or `NaN`, modelled as `none`) into a `Uint8Array`
cell: `NaN` becomes `0`, anything else is taken modulo 256. -/
def toUint8 : Option Int → Nat
  | none => 0
  | some v => (v % 256).toNat

/-- The XOR-accumulate loop of the constant-time comparison:
`result |= a.charCodeAt(i) ^ b.charCodeAt(i)` over the common length. -/
def ctFold (a b : List Char) : Nat :=
  (a.zip b).foldl (fun acc p => acc ||| (p.1.toNat ^^^ p.2.toNat)) 0

/-- The tail of `verifyPassword` once the salt has been decoded: re-derive
with the stored salt and compare digests in constant time.  `pbkdf2` stands
for the opaque `crypto.subtle.deriveBits` PBKDF2-SHA256 call. -/
def pbkdf2Compare (pbkdf2 : List Char → List Nat → List Nat)
    (password : List Char) (salt : List Nat) (expectedHashHex : List Char) :
    Except Unit Bool :=
  if (bytesToHex (pbkdf2 password salt)).length ≠ expectedHashHex.length then
    .ok false
  else
    .ok (decide (ctFold (bytesToHex (pbkdf2 password salt)) expectedHashHex = 0))

/-- Embeds `storedHash.split(":")` (JavaScript `String.prototype.split` with
a single-character separator, which never returns an empty array). -/
def splitOnColon : List Char → List (List Char)
  | [] => [[]]
  | c :: rest =>
    if c = ':' then [] :: splitOnColon rest
    else
      match splitOnColon rest with
      | [] => [[c]]
      | p :: ps => (c :: p) :: ps

/-- Embeds `verifyPassword(password, storedHash)`.  `sha256` stands for the
opaque `crypto.subtle.digest("SHA-256", _)` call, `pbkdf2` for the PBKDF2
derivation.  `.error ()` models a thrown exception: the source applies a
non-null assertion to `saltHex.match(/.{2}/g)`, so a salt part with no
two-character match makes `.map` throw a `TypeError`. -/
def verifyPassword (sha256 : List Char → List Nat)
    (pbkdf2 : List Char → List Nat → List Nat)
    (password storedHash : List Char) : Except Unit Bool :=
  if (splitOnColon storedHash).length = 1 ∧ storedHash.length = 64 then
    -- legacy bare SHA-256 digest path
    .ok (decide (bytesToHex (sha256 password) = storedHash))
  else
    match splitOnColon storedHash with
    | [saltHex, expectedHashHex] =>
      match matchPairs saltHex with
      | [] => .error ()
      | ms =>
        pbkdf2Compare pbkdf2 password
          (ms.map fun p => toUint8 (jsParseIntHex [p.1, p.2])) expectedHashHex
    | _ => .ok false

/-- Embeds `hashPassword(password)`.  The randomly drawn 16-byte salt is an
explicit argument standing for `crypto.getRandomValues(new Uint8Array(16))`. -/
def hashPassword (pbkdf2 : List Char → List Nat → List Nat)
    (password : List Char) (salt : List Nat) : List Char :=
  bytesToHex salt ++ ':' :: bytesToHex (pbkdf2 password salt)

/-! ## Session store (`src/utils/auth.ts` over the `sessions`/`users` tables)

The D1 database is a record of the two relevant tables; `datetime('now')`
and the stored `expires_at` strings are abstracted to integers with the
same ordering. -/

/-- Row of the `sessions` table. -/
structure Session where
  id : String
  user_id : Int
  expires_at : Int
deriving DecidableEq, Repr

/-- Row of the `users` table. -/
structure User where
  id : Int
  username : String
  password_hash : String
  created_at : String
deriving DecidableEq, Repr

/-- The slice of the D1 database the session store touches. -/
structure DB where
  sessions : List Session
  users : List User
deriving DecidableEq, Repr

/-- Embeds `getSession(db, sessionId)`: the join of `sessions` and `users`
filtered to `s.id = ? AND s.expires_at > datetime('now')`, taking the first
row (`.first()`), `none` when no row qualifies. -/
def getSession (db : DB) (now : Int) (sessionId : String) :
    Option (Session × User) :=
  (db.sessions.filterMap fun s =>
    if s.id = sessionId ∧ now < s.expires_at then
      (db.users.find? fun u => u.id = s.user_id).map fun u => (s, u)
    else none).head?

/-- Embeds `deleteSession(db, sessionId)`:
`DELETE FROM sessions WHERE id = ?`. -/
def deleteSession (db : DB) (sessionId : String) : DB :=
  { db with sessions := db.sessions.filter fun s => ¬s.id = sessionId }

/-- Embeds `cleanupExpiredSessions(db)`:
`DELETE FROM sessions WHERE expires_at < datetime('now')`. -/
def cleanupExpiredSessions (db : DB) (now : Int) : DB :=
  { db with sessions := db.sessions.filter fun s => ¬s.expires_at < now }

/-! ## Assertion validator (`src/utils/access.ts`)

`validateAccessJWT` is embedded as a state-passing function over the
module-level key cache (`cachedKeys` / `cacheExpiry`), instrumented with a
count of key-set fetches performed.  The opaque parts — `decodeJWTParts`
(base64url + JSON decoding), the RSA `verifySignature`, the network fetch,
and the clock — are environment parameters. -/

/-- One entry of the fetched JWK set. -/
structure JWKKey where
  kid : String
  kty : String
  n : String
  e : String
  alg : String
  use : String
deriving DecidableEq, Repr

/-- The JSON body of the key-set endpoint: `{ keys: [...] }`. -/
structure JWKSet where
  keys : List JWKKey
deriving DecidableEq, Repr

/-- Decoded JWT header. -/
structure JWTHeader where
  kid : String
  alg : String
  typ : String
deriving DecidableEq, Repr

/-- Decoded JWT payload.  `email` is `Option` valued so that a missing JSON
field (JavaScript `undefined`) is distinguishable from a present string;
likewise `aud` may be absent (`!payload.aud` is then truthy). -/
structure JWTPayload where
  email : Option String
  iss : String
  aud : Option (List String)
  exp : Int
  iat : Int
  sub : String
deriving DecidableEq, Repr

/-- Result of `decodeJWTParts`. -/
structure Decoded where
  header : JWTHeader
  payload : JWTPayload
  signatureInput : String
  signature : List Nat
deriving DecidableEq, Repr

/-- The module-level mutable state of `access.ts`: the cached key set and
its expiry, plus an instrumentation counter of fetches performed. -/
structure AccessState where
  cachedKeys : Option JWKSet
  cacheExpiry : Int
  fetchCount : Nat
deriving DecidableEq, Repr

/-- `CACHE_TTL_MS = 5 * 60 * 1000`. -/
def CACHE_TTL_MS : Int := 5 * 60 * 1000

/-- Environment of one `validateAccessJWT` call: the opaque decoding,
signature-check, fetch and clock operations.  `fetchResult n` is the
outcome of the `n`-th fetch of the key set (`none` models a thrown
network / non-OK-response error). -/
structure AccessEnv where
  decodeParts : String → Option Decoded
  verifySig : JWKKey → String → List Nat → Bool
  fetchResult : Nat → Option JWKSet
  nowMs : Int

/-- Embeds `getPublicKeys(teamDomain, forceRefresh)`: serve the cache when
it is populated, fresh and not forcibly bypassed, otherwise fetch and
install.  Returns the key set (or `none` for a thrown fetch error) and the
updated module state; every fetch attempt bumps `fetchCount`. -/
def getPublicKeys (env : AccessEnv) (forceRefresh : Bool) (st : AccessState) :
    Option JWKSet × AccessState :=
  if forceRefresh = false ∧ st.cachedKeys.isSome ∧ env.nowMs < st.cacheExpiry then
    (st.cachedKeys, st)
  else
    match env.fetchResult st.fetchCount with
    | none => (none, { st with fetchCount := st.fetchCount + 1 })
    | some ks =>
      (some ks,
       { cachedKeys := some ks, cacheExpiry := env.nowMs + CACHE_TTL_MS,
         fetchCount := st.fetchCount + 1 })

/-- Embeds `keys.keys.find((k) => k.kid === header.kid)`. -/
def findKey (keys : JWKSet) (kid : String) : Option JWKKey :=
  keys.keys.find? fun k => k.kid = kid

/-- Embeds `"https://" + teamDomain + ".cloudflareaccess.com"`. -/
def expectedIssuer (teamDomain : String) : String :=
  "https://" ++ teamDomain ++ ".cloudflareaccess.com"

/-- Embeds `!payload.aud || !payload.aud.includes(aud)` (negated): the
audience check passes iff `aud` is present and contains the expected tag. -/
def audCheck : Option (List String) → String → Bool
  | none, _ => false
  | some l, aud => l.contains aud

/-- Embeds the final `return payload.email || null`: a missing field and the
empty string (both falsy) yield `null`. -/
def emailOrNull : Option String → Option String
  | none => none
  | some e => if e = "" then none else some e

/-- The payload-validation tail of `validateAccessJWT`, entered once a key
with the declared `kid` has been located: signature, issuer, audience and
expiry checks in source order, then the email extraction. -/
def checkPayload (env : AccessEnv) (d : Decoded) (teamDomain aud : String)
    (key : JWKKey) : Option String :=
  if env.verifySig key d.signatureInput d.signature = false then none
  else if ¬d.payload.iss = expectedIssuer teamDomain then none
  else if audCheck d.payload.aud aud = false then none
  else if d.payload.exp < env.nowMs / 1000 then none
  else emailOrNull d.payload.email

/-- Embeds `validateAccessJWT(token, teamDomain, aud)` together with its
effect on the module-level key cache.  The surrounding `try/catch` turns
every thrown error (`none` from `decodeParts` or from a fetch) into a
`null` result. -/
def validateAccessJWT (env : AccessEnv) (token teamDomain aud : String)
    (st : AccessState) : Option String × AccessState :=
  match env.decodeParts token with
  | none => (none, st)
  | some d =>
    if ¬d.header.alg = "RS256" then (none, st)
    else
      match getPublicKeys env false st with
      | (none, st1) => (none, st1)
      | (some keys, st1) =>
        match findKey keys d.header.kid with
        | some key => (checkPayload env d teamDomain aud key, st1)
        | none =>
          -- key not found: may have rotated, force refresh once
          match getPublicKeys env true st1 with
          | (none, st2) => (none, st2)
          | (some keys2, st2) =>
            match findKey keys2 d.header.kid with
            | none => (none, st2)
            | some key => (checkPayload env d teamDomain aud key, st2)

/-! ## Auth middleware (`src/index.tsx`)

The `app.use("*")` middleware reads the `session` cookie, resolves it
through `getSession`, and publishes the outcome in the request context. -/

/-- Outcome of the auth middleware on one request: the `user` and `session`
context variables and whether the stale `session` cookie was cleared. -/
structure AuthResult where
  user : Option User
  session : Option Session
  clearedCookie : Bool
deriving DecidableEq, Repr

/-- Embeds the auth middleware.  `cookie` is `getCookie(c, "session")`
(`none` when the request carries no such cookie); the JavaScript truthiness
test `if (sessionId)` additionally treats an empty cookie value as absent. -/
def authMiddleware (db : DB) (now : Int) (cookie : Option String) : AuthResult :=
  match cookie with
  | none => { user := none, session := none, clearedCookie := false }
  | some sid =>
    if sid = "" then { user := none, session := none, clearedCookie := false }
    else
      match getSession db now sid with
      | some r => { user := some r.2, session := some r.1, clearedCookie := false }
      | none => { user := none, session := none, clearedCookie := true }

/-! ## Helper lemmas: hex encoding and decoding -/

theorem hexCharVal_hexDigit {n : Nat} (h : n < 16) :
    hexCharVal (hexDigit n) = some n := by
  interval_cases n <;> rfl

theorem hexDigit_not_lineTerm {n : Nat} (h : n < 16) :
    isLineTerm (hexDigit n) = false := by
  interval_cases n <;> rfl

theorem hexDigit_not_ws {n : Nat} (h : n < 16) :
    jsIsWhitespace (hexDigit n) = false := by
  interval_cases n <;> rfl

theorem hexDigit_ne_colon {n : Nat} (h : n < 16) : hexDigit n ≠ ':' := by
  interval_cases n <;> decide

theorem hexDigit_ne_minus {n : Nat} (h : n < 16) : hexDigit n ≠ '-' := by
  interval_cases n <;> decide

theorem hexDigit_ne_plus {n : Nat} (h : n < 16) : hexDigit n ≠ '+' := by
  interval_cases n <;> decide

theorem hexDigit_ne_x {n : Nat} (h : n < 16) :
    hexDigit n ≠ 'x' ∧ hexDigit n ≠ 'X' := by
  interval_cases n <;> exact ⟨by decide, by decide⟩

theorem hexDigit_inj {m n : Nat} (hm : m < 16) (hn : n < 16)
    (h : hexDigit m = hexDigit n) : m = n := by
  have h2 := congrArg hexCharVal h
  rw [hexCharVal_hexDigit hm, hexCharVal_hexDigit hn] at h2
  exact Option.some.inj h2

/-- Decoding one emitted hex pair through `parseInt(_, 16)` and the
`Uint8Array` coercion recovers the original byte. -/
theorem decodePair {b : Nat} (h : b < 256) :
    toUint8 (jsParseIntHex (byteToHex b)) = b := by
  have h1 : b / 16 < 16 := by omega
  have h2 : b % 16 < 16 := by omega
  have hdrop : (byteToHex b).dropWhile jsIsWhitespace = byteToHex b := by
    simp [byteToHex, List.dropWhile_cons, hexDigit_not_ws h1]
  have hsign : parseSign (byteToHex b) = (false, byteToHex b) := by
    simp [byteToHex, parseSign, hexDigit_ne_minus h1, hexDigit_ne_plus h1]
  have hstrip : strip0x (byteToHex b) = byteToHex b := by
    simp [byteToHex, strip0x, (hexDigit_ne_x h2).1, (hexDigit_ne_x h2).2]
  have hrun : hexRunStart (byteToHex b) = some (16 * (b / 16) + b % 16) := by
    simp [byteToHex, hexRunStart, hexRunAux, hexCharVal_hexDigit h1,
      hexCharVal_hexDigit h2]
  simp only [jsParseIntHex, hdrop, hsign, hstrip, hrun, toUint8,
    Bool.false_eq_true, if_false]
  omega

theorem matchPairs_bytesToHex {bs : List Nat} (h : ∀ b ∈ bs, b < 256) :
    matchPairs (bytesToHex bs) =
      bs.map fun b => (hexDigit (b / 16), hexDigit (b % 16)) := by
  induction bs with
  | nil => rfl
  | cons b rest ih =>
    have hb : b < 256 := h b (List.mem_cons_self b rest)
    have h1 : b / 16 < 16 := by omega
    have h2 : b % 16 < 16 := by omega
    have hrest : ∀ x ∈ rest, x < 256 := fun x hx => h x (List.mem_cons_of_mem b hx)
    simp only [bytesToHex, List.map_cons, List.flatten_cons, byteToHex,
      List.cons_append, List.nil_append]
    simp only [matchPairs, hexDigit_not_lineTerm h1, hexDigit_not_lineTerm h2,
      and_self, if_true]
    rw [show (rest.map byteToHex).flatten = bytesToHex rest from rfl, ih hrest]

/-- Decoding the emitted salt hex through the `match`/`parseInt` pipeline
recovers the original byte list. -/
theorem decode_bytesToHex {bs : List Nat} (h : ∀ b ∈ bs, b < 256) :
    ((matchPairs (bytesToHex bs)).map
      fun p => toUint8 (jsParseIntHex [p.1, p.2])) = bs := by
  rw [matchPairs_bytesToHex h, List.map_map]
  conv_rhs => rw [show bs = bs.map id from (List.map_id bs).symm]
  refine List.map_congr_left fun b hb => ?_
  have : toUint8 (jsParseIntHex (byteToHex b)) = b := decodePair (h b hb)
  simpa [byteToHex] using this

theorem mem_bytesToHex_ne_colon {bs : List Nat} (h : ∀ b ∈ bs, b < 256)
    {c : Char} (hc : c ∈ bytesToHex bs) : c ≠ ':' := by
  simp only [bytesToHex, List.mem_flatten, List.mem_map] at hc
  obtain ⟨l, ⟨b, hb, rfl⟩, hcl⟩ := hc
  have hb256 := h b hb
  have h1 : b / 16 < 16 := by omega
  have h2 : b % 16 < 16 := by omega
  simp only [byteToHex, List.mem_cons, List.not_mem_nil, or_false] at hcl
  rcases hcl with rfl | rfl
  · exact hexDigit_ne_colon h1
  · exact hexDigit_ne_colon h2

/-! ## Helper lemmas: split on the colon separator -/

theorem splitOnColon_no_colon {l : List Char} (h : ∀ c ∈ l, c ≠ ':') :
    splitOnColon l = [l] := by
  induction l with
  | nil => rfl
  | cons c rest ih =>
    have hc : c ≠ ':' := h c (List.mem_cons_self c rest)
    have hrest : ∀ x ∈ rest, x ≠ ':' := fun x hx => h x (List.mem_cons_of_mem c hx)
    rw [splitOnColon, if_neg hc, ih hrest]

theorem splitOnColon_append {a b : List Char} (ha : ∀ c ∈ a, c ≠ ':')
    (hb : ∀ c ∈ b, c ≠ ':') : splitOnColon (a ++ ':' :: b) = [a, b] := by
  induction a with
  | nil => simp [splitOnColon, splitOnColon_no_colon hb]
  | cons c rest ih =>
    have hc : c ≠ ':' := ha c (List.mem_cons_self c rest)
    have hrest : ∀ x ∈ rest, x ≠ ':' := fun x hx => ha x (List.mem_cons_of_mem c hx)
    rw [List.cons_append, splitOnColon, if_neg hc, ih hrest]

/-! ## Helper lemmas: constant-time comparison and hex injectivity -/

theorem lor_eq_zero_iff (a b : Nat) : a ||| b = 0 ↔ a = 0 ∧ b = 0 := by
  constructor
  · intro h
    constructor
    · apply Nat.eq_of_testBit_eq
      intro i
      have h2 := congrArg (fun n => n.testBit i) h
      simp only [Nat.testBit_or, Nat.zero_testBit, Bool.or_eq_false_iff] at h2
      simp [h2.1]
    · apply Nat.eq_of_testBit_eq
      intro i
      have h2 := congrArg (fun n => n.testBit i) h
      simp only [Nat.testBit_or, Nat.zero_testBit, Bool.or_eq_false_iff] at h2
      simp [h2.2]
  · rintro ⟨rfl, rfl⟩
    rfl

theorem char_toNat_inj {c d : Char} (h : c.toNat = d.toNat) : c = d := by
  apply Char.ext
  unfold Char.toNat at h
  exact UInt32.ext h

theorem ctFoldAux_eq_zero (l : List (Char × Char)) (acc : Nat) :
    l.foldl (fun a p => a ||| (p.1.toNat ^^^ p.2.toNat)) acc = 0 ↔
      acc = 0 ∧ ∀ p ∈ l, p.1 = p.2 := by
  induction l generalizing acc with
  | nil => simp
  | cons p rest ih =>
    rw [List.foldl_cons, ih, lor_eq_zero_iff, Nat.xor_eq_zero]
    constructor
    · rintro ⟨⟨h1, h2⟩, h3⟩
      exact ⟨h1, fun q hq => by
        rcases List.mem_cons.mp hq with rfl | hq2
        · exact char_toNat_inj h2
        · exact h3 q hq2⟩
    · rintro ⟨h1, h2⟩
      refine ⟨⟨h1, ?_⟩, fun q hq => h2 q (List.mem_cons_of_mem p hq)⟩
      rw [h2 p (List.mem_cons_self p rest)]

theorem ctFold_eq_zero_iff {a b : List Char} (h : a.length = b.length) :
    ctFold a b = 0 ↔ a = b := by
  rw [ctFold, ctFoldAux_eq_zero]
  simp only [true_and]
  constructor
  · intro hp
    apply List.ext_getElem h
    intro i h1 h2
    have hm : (a[i], b[i]) ∈ a.zip b := by
      rw [List.mem_iff_getElem]
      exact ⟨i, by simp [List.length_zip, h1, h2, h], by simp⟩
    exact hp (a[i], b[i]) hm
  · rintro rfl p hp
    rcases List.mem_iff_getElem.mp hp with ⟨i, hi, hrw⟩
    have : p.1 = p.2 := by
      have h1 := congrArg Prod.fst hrw
      have h2 := congrArg Prod.snd hrw
      simp at h1 h2
      rw [← h1, ← h2]
    exact this

theorem bytesToHex_inj {xs ys : List Nat} (hx : ∀ b ∈ xs, b < 256)
    (hy : ∀ b ∈ ys, b < 256) (h : bytesToHex xs = bytesToHex ys) : xs = ys := by
  induction xs generalizing ys with
  | nil =>
    cases ys with
    | nil => rfl
    | cons y t => simp [bytesToHex, byteToHex] at h
  | cons x xt ih =>
    cases ys with
    | nil => simp [bytesToHex, byteToHex] at h
    | cons y yt =>
      have hx256 : x < 256 := hx x (List.mem_cons_self x xt)
      have hy256 : y < 256 := hy y (List.mem_cons_self y yt)
      simp only [bytesToHex, List.map_cons, List.flatten_cons, byteToHex,
        List.cons_append, List.nil_append, List.cons.injEq] at h
      obtain ⟨e1, e2, e3⟩ := h
      have hq : x = y := by
        have d1 := hexDigit_inj (by omega) (by omega) e1
        have d2 := hexDigit_inj (by omega) (by omega) e2
        omega
      subst hq
      have := ih (fun b hb => hx b (List.mem_cons_of_mem x hb))
        (fun b hb => hy b (List.mem_cons_of_mem x hb)) e3
      rw [this]

/-! ## Hasher: behaviour of `verifyPassword` on `hashPassword` output -/

/-- On a freshly produced representation, `verifyPassword` reaches the
PBKDF2 comparison with the original salt recovered from its hex form. -/
theorem verify_hashPassword_eq (sha256 : List Char → List Nat)
    (pb : List Char → List Nat → List Nat) (p q : List Char) (salt : List Nat)
    (hb : ∀ b ∈ salt, b < 256) (hne : salt ≠ [])
    (hpb : ∀ b ∈ pb p salt, b < 256) :
    verifyPassword sha256 pb q (hashPassword pb p salt) =
      pbkdf2Compare pb q salt (bytesToHex (pb p salt)) := by
  have hA : ∀ c ∈ bytesToHex salt, c ≠ ':' :=
    fun c hc => mem_bytesToHex_ne_colon hb hc
  have hB : ∀ c ∈ bytesToHex (pb p salt), c ≠ ':' :=
    fun c hc => mem_bytesToHex_ne_colon hpb hc
  have hsplit : splitOnColon (hashPassword pb p salt) =
      [bytesToHex salt, bytesToHex (pb p salt)] := splitOnColon_append hA hB
  obtain ⟨s0, srest, rfl⟩ : ∃ s0 srest, salt = s0 :: srest := by
    cases salt with
    | nil => exact absurd rfl hne
    | cons a b => exact ⟨a, b, rfl⟩
  have hmp : matchPairs (bytesToHex (s0 :: srest)) =
      (hexDigit (s0 / 16), hexDigit (s0 % 16)) ::
        (srest.map fun b => (hexDigit (b / 16), hexDigit (b % 16))) := by
    rw [matchPairs_bytesToHex hb]
    rfl
  have hdec := decode_bytesToHex hb
  rw [hmp] at hdec
  rw [verifyPassword, hsplit]
  rw [if_neg (by simp)]
  simp only [hmp, hdec]

/-- Comparing a digest hex against itself succeeds. -/
theorem pbkdf2Compare_self (pb : List Char → List Nat → List Nat)
    (p : List Char) (salt : List Nat) :
    pbkdf2Compare pb p salt (bytesToHex (pb p salt)) = .ok true := by
  rw [pbkdf2Compare, if_neg (by simp)]
  simp [ctFold_eq_zero_iff rfl]

/-- Comparing a digest hex against a different stored hex fails. -/
theorem pbkdf2Compare_ne (pb : List Char → List Nat → List Nat)
    (q : List Char) (salt : List Nat) (stored : List Char)
    (h : bytesToHex (pb q salt) ≠ stored) :
    pbkdf2Compare pb q salt stored = .ok false := by
  by_cases hl : (bytesToHex (pb q salt)).length = stored.length
  · rw [pbkdf2Compare, if_neg (by simpa using hl)]
    simp [ctFold_eq_zero_iff hl, h]
  · rw [pbkdf2Compare, if_pos (by simpa using hl)]

/-! ## Claim theorems -/

/-- C1: the claim states that `verifyPassword` never throws and resolves
every malformed stored representation to `false`.  The code violates this:
on the stored representation `":00"` (empty salt part before the
separator), `saltHex.match(/.{2}/g)` is `null` and the non-null assertion
makes the subsequent `.map` throw a `TypeError`.  This theorem evaluates
the embedded code at that failing input and exhibits the thrown
exception. -/
theorem C1_verifyPassword_throws_on_empty_salt :
    verifyPassword (fun _ => List.replicate 32 0) (fun _ _ => List.replicate 32 0)
      ['x'] [':', '0', '0'] = .error () := by
  rfl

/-- C2: for every secret, `verifyPassword(secret, hashPassword(secret))` is
true for any salt the hasher may draw, and a different secret fails.  The
PBKDF2 primitive is opaque, so the second half is stated under the
collision-freedom hypothesis `hcoll` (the two derived keys differ), which
is the standard idealization of the property test; `hd1`/`hd2` record that
`deriveBits` outputs are bytes. -/
theorem C2_verify_roundtrip (sha256 : List Char → List Nat)
    (pb : List Char → List Nat → List Nat) (salt : List Nat)
    (secret secret2 : List Char)
    (hlen : salt.length = 16) (hb : ∀ b ∈ salt, b < 256)
    (hd1 : ∀ b ∈ pb secret salt, b < 256) (hd2 : ∀ b ∈ pb secret2 salt, b < 256)
    (hne : secret2 ≠ secret) (hcoll : pb secret2 salt ≠ pb secret salt) :
    verifyPassword sha256 pb secret (hashPassword pb secret salt) = .ok true ∧
    verifyPassword sha256 pb secret2 (hashPassword pb secret salt) = .ok false := by
  have hne0 : salt ≠ [] := by
    intro h
    rw [h] at hlen
    simp at hlen
  constructor
  · rw [verify_hashPassword_eq sha256 pb secret secret salt hb hne0 hd1,
      pbkdf2Compare_self]
  · rw [verify_hashPassword_eq sha256 pb secret secret2 salt hb hne0 hd1]
    exact pbkdf2Compare_ne pb secret2 salt (bytesToHex (pb secret salt))
      fun hEq => hcoll (bytesToHex_inj hd2 hd1 hEq)

/-- Witness for C2 at a concrete salt, secret pair and toy derivation. -/
theorem C2_verify_roundtrip_witness :
    (([0, 1, 2, 3, 4, 5, 6, 7, 8, 9, 10, 11, 12, 13, 14, 15] : List Nat).length = 16 ∧
     (∀ b ∈ ([0, 1, 2, 3, 4, 5, 6, 7, 8, 9, 10, 11, 12, 13, 14, 15] : List Nat), b < 256) ∧
     (∀ b ∈ (fun (p : List Char) (_ : List Nat) => [p.length % 256]) ['a']
        [0, 1, 2, 3, 4, 5, 6, 7, 8, 9, 10, 11, 12, 13, 14, 15], b < 256) ∧
     (∀ b ∈ (fun (p : List Char) (_ : List Nat) => [p.length % 256]) ['b', 'b']
        [0, 1, 2, 3, 4, 5, 6, 7, 8, 9, 10, 11, 12, 13, 14, 15], b < 256) ∧
     (['b', 'b'] ≠ ['a']) ∧
     ((fun (p : List Char) (_ : List Nat) => [p.length % 256]) ['b', 'b']
        [0, 1, 2, 3, 4, 5, 6, 7, 8, 9, 10, 11, 12, 13, 14, 15] ≠
      (fun (p : List Char) (_ : List Nat) => [p.length % 256]) ['a']
        [0, 1, 2, 3, 4, 5, 6, 7, 8, 9, 10, 11, 12, 13, 14, 15])) ∧
    (verifyPassword (fun _ => []) (fun p _ => [p.length % 256]) ['a']
      (hashPassword (fun p _ => [p.length % 256]) ['a']
        [0, 1, 2, 3, 4, 5, 6, 7, 8, 9, 10, 11, 12, 13, 14, 15]) = .ok true ∧
     verifyPassword (fun _ => []) (fun p _ => [p.length % 256]) ['b', 'b']
      (hashPassword (fun p _ => [p.length % 256]) ['a']
        [0, 1, 2, 3, 4, 5, 6, 7, 8, 9, 10, 11, 12, 13, 14, 15]) = .ok false) :=
  ⟨⟨by decide, by decide, by decide, by decide, by decide, by decide⟩,
    C2_verify_roundtrip (fun _ => []) (fun p _ => [p.length % 256])
      [0, 1, 2, 3, 4, 5, 6, 7, 8, 9, 10, 11, 12, 13, 14, 15] ['a'] ['b', 'b']
      (by decide) (by decide) (by decide) (by decide) (by decide) (by decide)⟩

/-- C4: `getSession` returns `none` exactly when no row with the token
exists or the row's expiry is at or before the current time, and otherwise
returns the session joined with its owning user.  `hFK` is the schema's
foreign-key integrity (`sessions.user_id REFERENCES users(id)`); absent and
expired tokens produce the identical `none` with no distinguishing
error. -/
theorem C4_getSession_absent_iff_expired (db : DB) (now : Int) (t : String)
    (hFK : ∀ s ∈ db.sessions, ∃ u ∈ db.users, u.id = s.user_id) :
    (getSession db now t = none ↔
      ∀ s ∈ db.sessions, s.id = t → s.expires_at ≤ now) ∧
    (∀ s u, getSession db now t = some (s, u) →
      s ∈ db.sessions ∧ s.id = t ∧ now < s.expires_at ∧
        u ∈ db.users ∧ u.id = s.user_id) := by
  constructor
  · rw [getSession, List.head?_eq_none_iff, List.filterMap_eq_nil_iff]
    constructor
    · intro h s hs hid
      by_contra hlt
      push_neg at hlt
      have hnone := h s hs
      rw [if_pos ⟨hid, hlt⟩] at hnone
      obtain ⟨u, hu, huid⟩ := hFK s hs
      have hfind : (db.users.find? fun u => u.id = s.user_id).isSome := by
        rw [List.find?_isSome]
        exact ⟨u, hu, by simp [huid]⟩
      rcases Option.isSome_iff_exists.mp hfind with ⟨u2, hu2⟩
      rw [hu2] at hnone
      simp at hnone
    · intro h s hs
      exact if_neg fun hc => absurd (h s hs hc.1) (not_le.mpr hc.2)
  · intro s u hsu
    rw [getSession] at hsu
    have hmem : (s, u) ∈ db.sessions.filterMap fun s0 =>
        if s0.id = t ∧ now < s0.expires_at then
          (db.users.find? fun u0 => u0.id = s0.user_id).map fun u0 => (s0, u0)
        else none :=
      List.mem_of_mem_head? (by rw [hsu]; rfl)
    rcases List.mem_filterMap.mp hmem with ⟨s0, hs0, hf⟩
    by_cases hc : s0.id = t ∧ now < s0.expires_at
    · rw [if_pos hc] at hf
      rcases Option.map_eq_some'.mp hf with ⟨u0, hu0, heq⟩
      have hs0s : s0 = s := congrArg Prod.fst heq
      have hu0u : u0 = u := congrArg Prod.snd heq
      subst hs0s
      subst hu0u
      refine ⟨hs0, hc.1, hc.2, List.mem_of_find?_eq_some hu0, ?_⟩
      have := List.find?_some hu0
      simpa using this
    · rw [if_neg hc] at hf
      exact absurd hf (by simp)

/-- Witness for C4 on a one-session, one-user store. -/
theorem C4_getSession_witness :
    (∀ s ∈ (DB.mk [{ id := "tok", user_id := 1, expires_at := 100 }]
        [{ id := 1, username := "u", password_hash := "h", created_at := "c" }]).sessions,
      ∃ u ∈ (DB.mk [{ id := "tok", user_id := 1, expires_at := 100 }]
        [{ id := 1, username := "u", password_hash := "h", created_at := "c" }]).users,
        u.id = s.user_id) ∧
    ((getSession (DB.mk [{ id := "tok", user_id := 1, expires_at := 100 }]
        [{ id := 1, username := "u", password_hash := "h", created_at := "c" }]) 50 "tok" = none ↔
      ∀ s ∈ (DB.mk [{ id := "tok", user_id := 1, expires_at := 100 }]
        [{ id := 1, username := "u", password_hash := "h", created_at := "c" }]).sessions,
        s.id = "tok" → s.expires_at ≤ 50) ∧
     (∀ s u, getSession (DB.mk [{ id := "tok", user_id := 1, expires_at := 100 }]
        [{ id := 1, username := "u", password_hash := "h", created_at := "c" }]) 50 "tok" =
          some (s, u) →
        s ∈ (DB.mk [{ id := "tok", user_id := 1, expires_at := 100 }]
          [{ id := 1, username := "u", password_hash := "h", created_at := "c" }]).sessions ∧
        s.id = "tok" ∧ (50 : Int) < s.expires_at ∧
        u ∈ (DB.mk [{ id := "tok", user_id := 1, expires_at := 100 }]
          [{ id := 1, username := "u", password_hash := "h", created_at := "c" }]).users ∧
        u.id = s.user_id)) :=
  ⟨by decide,
    C4_getSession_absent_iff_expired
      (DB.mk [{ id := "tok", user_id := 1, expires_at := 100 }]
        [{ id := 1, username := "u", password_hash := "h", created_at := "c" }])
      50 "tok" (by decide)⟩

/-- C7 counterexample: the claim says `cleanupExpiredSessions` deletes every
row with `expiry <= now`, but the SQL predicate is the strict
`expires_at < datetime('now')`: a row whose expiry equals the current time
is kept (even though `getSession` already treats it as expired). -/
theorem C7_boundary_row_survives :
    cleanupExpiredSessions
      (DB.mk [{ id := "t", user_id := 1, expires_at := 100 }] []) 100 =
      DB.mk [{ id := "t", user_id := 1, expires_at := 100 }] [] ∧
    (Session.mk "t" 1 100).expires_at ≤ 100 := by
  exact ⟨by decide, by decide⟩

/-- C7 (amended): `cleanupExpiredSessions` deletes exactly the rows whose
expiry is strictly before the current time; rows with expiry at or after
the current time (including the boundary `expiry = now`) are kept, and the
`users` table is untouched. -/
theorem C7_cleanup_deletes_strictly_expired (db : DB) (now : Int) :
    (∀ s, s ∈ (cleanupExpiredSessions db now).sessions ↔
      s ∈ db.sessions ∧ now ≤ s.expires_at) ∧
    (cleanupExpiredSessions db now).users = db.users := by
  constructor
  · intro s
    simp [cleanupExpiredSessions, List.mem_filter, not_lt]
  · rfl

/-- C8: `deleteSession` removes exactly the rows with the given token (a
silent no-op when none exists), is idempotent, leaves the `users` table
untouched, and a subsequent `getSession` on that token returns `none`. -/
theorem C8_deleteSession_spec (db : DB) (t : String) :
    (∀ s, s ∈ (deleteSession db t).sessions ↔ s ∈ db.sessions ∧ s.id ≠ t) ∧
    deleteSession (deleteSession db t) t = deleteSession db t ∧
    (∀ now, getSession (deleteSession db t) now t = none) ∧
    (deleteSession db t).users = db.users := by
  refine ⟨?_, ?_, ?_, rfl⟩
  · intro s
    simp [deleteSession, List.mem_filter]
  · show DB.mk _ _ = DB.mk _ _
    simp [deleteSession, List.filter_filter]
  · intro now
    rw [getSession, List.head?_eq_none_iff, List.filterMap_eq_nil_iff]
    intro s hs
    have hid : ¬s.id = t := by
      have := (List.mem_filter.mp hs).2
      simpa using this
    exact if_neg fun hc => hid hc.1

/-! ## Assertion validator lemmas -/

theorem getPublicKeys_force_fetchCount (env : AccessEnv) (st : AccessState) :
    (getPublicKeys env true st).2.fetchCount = st.fetchCount + 1 := by
  rw [getPublicKeys, if_neg (by simp)]
  cases env.fetchResult st.fetchCount <;> rfl

/-- The payload check rejects whenever the expiry is strictly before the
current time in whole seconds, whatever key was located. -/
theorem checkPayload_none_of_expired (env : AccessEnv) (d : Decoded)
    (teamDomain aud : String) (key : JWKKey)
    (hexp : d.payload.exp < env.nowMs / 1000) :
    checkPayload env d teamDomain aud key = none := by
  by_cases hA : env.verifySig key d.signatureInput d.signature = false
  · rw [checkPayload, if_pos hA]
  · rw [checkPayload, if_neg hA]
    by_cases hB : ¬d.payload.iss = expectedIssuer teamDomain
    · rw [if_pos hB]
    · rw [if_neg hB]
      by_cases hC : audCheck d.payload.aud aud = false
      · rw [if_pos hC]
      · rw [if_neg hC, if_pos hexp]

/-- The payload check rejects whenever the payload's email field is absent
or empty, whatever key was located. -/
theorem checkPayload_none_of_no_email (env : AccessEnv) (d : Decoded)
    (teamDomain aud : String) (key : JWKKey)
    (hemail : d.payload.email = none ∨ d.payload.email = some "") :
    checkPayload env d teamDomain aud key = none := by
  by_cases hA : env.verifySig key d.signatureInput d.signature = false
  · rw [checkPayload, if_pos hA]
  · rw [checkPayload, if_neg hA]
    by_cases hB : ¬d.payload.iss = expectedIssuer teamDomain
    · rw [if_pos hB]
    · rw [if_neg hB]
      by_cases hC : audCheck d.payload.aud aud = false
      · rw [if_pos hC]
      · rw [if_neg hC]
        by_cases hD : d.payload.exp < env.nowMs / 1000
        · rw [if_pos hD]
        · rw [if_neg hD]
          rcases hemail with h | h <;> simp [emailOrNull, h]

/-- C3 counterexample: the claim says every assertion whose `exp` is less
than or equal to the current time is rejected, but the source's check is
the strict `payload.exp < now`: with the clock at 5000 ms (current second
5) and `exp = 5`, a token that is otherwise valid is accepted and the
email is returned. -/
theorem C3_boundary_exp_accepted :
    (validateAccessJWT
      (AccessEnv.mk
        (fun _ => some (Decoded.mk (JWTHeader.mk "k1" "RS256" "JWT")
          (JWTPayload.mk (some "user@example.com")
            "https://team.cloudflareaccess.com" (some ["aud1"]) 5 0 "s") "hp" [1]))
        (fun _ _ _ => true)
        (fun _ => some (JWKSet.mk [JWKKey.mk "k1" "RSA" "n" "e" "RS256" "sig"]))
        5000)
      "tok" "team" "aud1" (AccessState.mk none 0 0)).1 = some "user@example.com" ∧
    (5 : Int) ≤ 5000 / 1000 := by
  exact ⟨by rfl, by decide⟩

/-- C3 (amended): `validateAccessJWT` rejects every assertion whose payload
expiry is strictly before the current time in whole seconds
(`Math.floor(Date.now() / 1000)`), whatever the other checks would say; a
token whose `exp` equals the current second passes the expiry check. -/
theorem C3_expired_rejected (env : AccessEnv) (token teamDomain aud : String)
    (st : AccessState) (d : Decoded)
    (hdec : env.decodeParts token = some d)
    (hexp : d.payload.exp < env.nowMs / 1000) :
    (validateAccessJWT env token teamDomain aud st).1 = none := by
  simp only [validateAccessJWT, hdec]
  split
  · rfl
  · split
    · rfl
    · split
      · exact checkPayload_none_of_expired env d teamDomain aud _ hexp
      · split
        · rfl
        · split
          · rfl
          · exact checkPayload_none_of_expired env d teamDomain aud _ hexp

/-- Witness for C3 (amended) with the clock one second past expiry. -/
theorem C3_expired_rejected_witness :
    ((AccessEnv.mk
        (fun _ => some (Decoded.mk (JWTHeader.mk "k1" "RS256" "JWT")
          (JWTPayload.mk (some "user@example.com")
            "https://team.cloudflareaccess.com" (some ["aud1"]) 4 0 "s") "hp" [1]))
        (fun _ _ _ => true)
        (fun _ => some (JWKSet.mk [JWKKey.mk "k1" "RSA" "n" "e" "RS256" "sig"]))
        5000).decodeParts "tok" =
      some (Decoded.mk (JWTHeader.mk "k1" "RS256" "JWT")
        (JWTPayload.mk (some "user@example.com")
          "https://team.cloudflareaccess.com" (some ["aud1"]) 4 0 "s") "hp" [1]) ∧
     (4 : Int) < 5000 / 1000) ∧
    (validateAccessJWT
      (AccessEnv.mk
        (fun _ => some (Decoded.mk (JWTHeader.mk "k1" "RS256" "JWT")
          (JWTPayload.mk (some "user@example.com")
            "https://team.cloudflareaccess.com" (some ["aud1"]) 4 0 "s") "hp" [1]))
        (fun _ _ _ => true)
        (fun _ => some (JWKSet.mk [JWKKey.mk "k1" "RSA" "n" "e" "RS256" "sig"]))
        5000)
      "tok" "team" "aud1" (AccessState.mk none 0 0)).1 = none :=
  ⟨⟨rfl, by decide⟩,
    C3_expired_rejected
      (AccessEnv.mk
        (fun _ => some (Decoded.mk (JWTHeader.mk "k1" "RS256" "JWT")
          (JWTPayload.mk (some "user@example.com")
            "https://team.cloudflareaccess.com" (some ["aud1"]) 4 0 "s") "hp" [1]))
        (fun _ _ _ => true)
        (fun _ => some (JWKSet.mk [JWKKey.mk "k1" "RSA" "n" "e" "RS256" "sig"]))
        5000)
      "tok" "team" "aud1" (AccessState.mk none 0 0)
      (Decoded.mk (JWTHeader.mk "k1" "RS256" "JWT")
        (JWTPayload.mk (some "user@example.com")
          "https://team.cloudflareaccess.com" (some ["aud1"]) 4 0 "s") "hp" [1])
      rfl (by decide)⟩

/-- C5: a token whose decoded header declares any algorithm other than
RS256 is rejected with the module state returned untouched: the key cache
is unchanged and no key-set fetch is performed (`fetchCount` is part of
the state equality). -/
theorem C5_wrong_alg_no_cache_touch (env : AccessEnv)
    (token teamDomain aud : String) (st : AccessState) (d : Decoded)
    (hdec : env.decodeParts token = some d)
    (halg : d.header.alg ≠ "RS256") :
    validateAccessJWT env token teamDomain aud st = (none, st) := by
  simp only [validateAccessJWT, hdec]
  rw [if_pos halg]

/-- Witness for C5 with a token declaring HS256 against a populated cache. -/
theorem C5_wrong_alg_witness :
    ((AccessEnv.mk
        (fun _ => some (Decoded.mk (JWTHeader.mk "k1" "HS256" "JWT")
          (JWTPayload.mk (some "e") "i" (some []) 0 0 "s") "hp" []))
        (fun _ _ _ => true) (fun _ => none) 0).decodeParts "tok" =
      some (Decoded.mk (JWTHeader.mk "k1" "HS256" "JWT")
        (JWTPayload.mk (some "e") "i" (some []) 0 0 "s") "hp" []) ∧
     ("HS256" : String) ≠ "RS256") ∧
    validateAccessJWT
      (AccessEnv.mk
        (fun _ => some (Decoded.mk (JWTHeader.mk "k1" "HS256" "JWT")
          (JWTPayload.mk (some "e") "i" (some []) 0 0 "s") "hp" []))
        (fun _ _ _ => true) (fun _ => none) 0)
      "tok" "team" "aud1" (AccessState.mk (some (JWKSet.mk [])) 7 3) =
      (none, AccessState.mk (some (JWKSet.mk [])) 7 3) :=
  ⟨⟨rfl, by decide⟩,
    C5_wrong_alg_no_cache_touch
      (AccessEnv.mk
        (fun _ => some (Decoded.mk (JWTHeader.mk "k1" "HS256" "JWT")
          (JWTPayload.mk (some "e") "i" (some []) 0 0 "s") "hp" []))
        (fun _ _ _ => true) (fun _ => none) 0)
      "tok" "team" "aud1" (AccessState.mk (some (JWKSet.mk [])) 7 3)
      (Decoded.mk (JWTHeader.mk "k1" "HS256" "JWT")
        (JWTPayload.mk (some "e") "i" (some []) 0 0 "s") "hp" [])
      rfl (by decide)⟩

/-- C6: when the declared key id is absent from the key set served by the
first (non-forced) `getPublicKeys` call, `validateAccessJWT` performs
exactly one further key-set fetch — the forced refetch — whatever its
outcome, and if the key id is still absent from the refetched set it
returns `null` in exactly the post-refetch state, with no additional
fetch. -/
theorem C6_single_forced_refetch (env : AccessEnv)
    (token teamDomain aud : String) (st : AccessState) (d : Decoded)
    (keys : JWKSet) (st1 : AccessState)
    (hdec : env.decodeParts token = some d)
    (halg : d.header.alg = "RS256")
    (hfirst : getPublicKeys env false st = (some keys, st1))
    (hmiss : findKey keys d.header.kid = none) :
    (validateAccessJWT env token teamDomain aud st).2.fetchCount =
      st1.fetchCount + 1 ∧
    (∀ keys2 st2, getPublicKeys env true st1 = (some keys2, st2) →
      findKey keys2 d.header.kid = none →
      validateAccessJWT env token teamDomain aud st = (none, st2)) := by
  have hred : validateAccessJWT env token teamDomain aud st =
      (match getPublicKeys env true st1 with
       | (none, st2) => (none, st2)
       | (some keys2, st2) =>
         match findKey keys2 d.header.kid with
         | none => (none, st2)
         | some key => (checkPayload env d teamDomain aud key, st2)) := by
    simp only [validateAccessJWT, hdec, halg]
    rw [if_neg (by simp)]
    simp only [hfirst, hmiss]
  constructor
  · rw [hred]
    rcases h2 : getPublicKeys env true st1 with ⟨ko, st2⟩
    have hc : st2.fetchCount = st1.fetchCount + 1 := by
      have h3 := getPublicKeys_force_fetchCount env st1
      rw [h2] at h3
      exact h3
    cases ko with
    | none => exact hc
    | some keys2 =>
      cases h3 : findKey keys2 d.header.kid with
      | none =>
        simp only [h3]
        exact hc
      | some key =>
        simp only [h3]
        exact hc
  · intro keys2 st2 h2 hm2
    rw [hred]
    simp only [h2, hm2]

/-- Witness for C6: a cold cache whose fetches keep returning a key set
that lacks the declared key id `k1`. -/
theorem C6_single_forced_refetch_witness :
    ((AccessEnv.mk
        (fun _ => some (Decoded.mk (JWTHeader.mk "k1" "RS256" "JWT")
          (JWTPayload.mk (some "e") "i" (some []) 0 0 "s") "hp" []))
        (fun _ _ _ => true)
        (fun _ => some (JWKSet.mk [JWKKey.mk "kOld" "RSA" "n" "e" "RS256" "sig"]))
        0).decodeParts "tok" =
      some (Decoded.mk (JWTHeader.mk "k1" "RS256" "JWT")
        (JWTPayload.mk (some "e") "i" (some []) 0 0 "s") "hp" []) ∧
     ("RS256" : String) = "RS256" ∧
     getPublicKeys
       (AccessEnv.mk
         (fun _ => some (Decoded.mk (JWTHeader.mk "k1" "RS256" "JWT")
           (JWTPayload.mk (some "e") "i" (some []) 0 0 "s") "hp" []))
         (fun _ _ _ => true)
         (fun _ => some (JWKSet.mk [JWKKey.mk "kOld" "RSA" "n" "e" "RS256" "sig"]))
         0) false (AccessState.mk none 0 0) =
       (some (JWKSet.mk [JWKKey.mk "kOld" "RSA" "n" "e" "RS256" "sig"]),
        AccessState.mk (some (JWKSet.mk [JWKKey.mk "kOld" "RSA" "n" "e" "RS256" "sig"]))
          (0 + CACHE_TTL_MS) 1) ∧
     findKey (JWKSet.mk [JWKKey.mk "kOld" "RSA" "n" "e" "RS256" "sig"]) "k1" = none) ∧
    ((validateAccessJWT
        (AccessEnv.mk
          (fun _ => some (Decoded.mk (JWTHeader.mk "k1" "RS256" "JWT")
            (JWTPayload.mk (some "e") "i" (some []) 0 0 "s") "hp" []))
          (fun _ _ _ => true)
          (fun _ => some (JWKSet.mk [JWKKey.mk "kOld" "RSA" "n" "e" "RS256" "sig"]))
          0)
        "tok" "team" "aud1" (AccessState.mk none 0 0)).2.fetchCount =
      (AccessState.mk (some (JWKSet.mk [JWKKey.mk "kOld" "RSA" "n" "e" "RS256" "sig"]))
        (0 + CACHE_TTL_MS) 1).fetchCount + 1 ∧
     (∀ keys2 st2,
       getPublicKeys
         (AccessEnv.mk
           (fun _ => some (Decoded.mk (JWTHeader.mk "k1" "RS256" "JWT")
             (JWTPayload.mk (some "e") "i" (some []) 0 0 "s") "hp" []))
           (fun _ _ _ => true)
           (fun _ => some (JWKSet.mk [JWKKey.mk "kOld" "RSA" "n" "e" "RS256" "sig"]))
           0) true
         (AccessState.mk (some (JWKSet.mk [JWKKey.mk "kOld" "RSA" "n" "e" "RS256" "sig"]))
           (0 + CACHE_TTL_MS) 1) = (some keys2, st2) →
       findKey keys2 "k1" = none →
       validateAccessJWT
         (AccessEnv.mk
           (fun _ => some (Decoded.mk (JWTHeader.mk "k1" "RS256" "JWT")
             (JWTPayload.mk (some "e") "i" (some []) 0 0 "s") "hp" []))
           (fun _ _ _ => true)
           (fun _ => some (JWKSet.mk [JWKKey.mk "kOld" "RSA" "n" "e" "RS256" "sig"]))
           0)
         "tok" "team" "aud1" (AccessState.mk none 0 0) = (none, st2))) :=
  ⟨⟨rfl, rfl, by decide, by decide⟩,
    C6_single_forced_refetch
      (AccessEnv.mk
        (fun _ => some (Decoded.mk (JWTHeader.mk "k1" "RS256" "JWT")
          (JWTPayload.mk (some "e") "i" (some []) 0 0 "s") "hp" []))
        (fun _ _ _ => true)
        (fun _ => some (JWKSet.mk [JWKKey.mk "kOld" "RSA" "n" "e" "RS256" "sig"]))
        0)
      "tok" "team" "aud1" (AccessState.mk none 0 0)
      (Decoded.mk (JWTHeader.mk "k1" "RS256" "JWT")
        (JWTPayload.mk (some "e") "i" (some []) 0 0 "s") "hp" [])
      (JWKSet.mk [JWKKey.mk "kOld" "RSA" "n" "e" "RS256" "sig"])
      (AccessState.mk (some (JWKSet.mk [JWKKey.mk "kOld" "RSA" "n" "e" "RS256" "sig"]))
        (0 + CACHE_TTL_MS) 1)
      rfl rfl (by decide) (by decide)⟩

/-- C10: an assertion that decodes, declares RS256, verifies against every
candidate key, and satisfies the issuer, audience and expiry checks, but
whose payload email field is absent or the empty string, is rejected
(`null`) rather than accepted with an empty subject identifier — the final
`return payload.email || null` turns both falsy values into `null`. -/
theorem C10_empty_email_rejected (env : AccessEnv)
    (token teamDomain aud : String) (st : AccessState) (d : Decoded)
    (hdec : env.decodeParts token = some d)
    (halg : d.header.alg = "RS256")
    (hsig : ∀ k, env.verifySig k d.signatureInput d.signature = true)
    (hiss : d.payload.iss = expectedIssuer teamDomain)
    (haud : audCheck d.payload.aud aud = true)
    (hexp : ¬d.payload.exp < env.nowMs / 1000)
    (hemail : d.payload.email = none ∨ d.payload.email = some "") :
    (validateAccessJWT env token teamDomain aud st).1 = none := by
  simp only [validateAccessJWT, hdec]
  split
  · rfl
  · split
    · rfl
    · split
      · exact checkPayload_none_of_no_email env d teamDomain aud _ hemail
      · split
        · rfl
        · split
          · rfl
          · exact checkPayload_none_of_no_email env d teamDomain aud _ hemail

/-- Witness for C10: a fully valid assertion whose email claim is the
empty string. -/
theorem C10_empty_email_witness :
    ((AccessEnv.mk
        (fun _ => some (Decoded.mk (JWTHeader.mk "k1" "RS256" "JWT")
          (JWTPayload.mk (some "") "https://team.cloudflareaccess.com"
            (some ["aud1"]) 5 0 "s") "hp" [1]))
        (fun _ _ _ => true)
        (fun _ => some (JWKSet.mk [JWKKey.mk "k1" "RSA" "n" "e" "RS256" "sig"]))
        5000).decodeParts "tok" =
      some (Decoded.mk (JWTHeader.mk "k1" "RS256" "JWT")
        (JWTPayload.mk (some "") "https://team.cloudflareaccess.com"
          (some ["aud1"]) 5 0 "s") "hp" [1]) ∧
     ("RS256" : String) = "RS256" ∧
     ("https://team.cloudflareaccess.com" : String) = expectedIssuer "team" ∧
     audCheck (some ["aud1"]) "aud1" = true ∧
     ¬(5 : Int) < 5000 / 1000) ∧
    (validateAccessJWT
      (AccessEnv.mk
        (fun _ => some (Decoded.mk (JWTHeader.mk "k1" "RS256" "JWT")
          (JWTPayload.mk (some "") "https://team.cloudflareaccess.com"
            (some ["aud1"]) 5 0 "s") "hp" [1]))
        (fun _ _ _ => true)
        (fun _ => some (JWKSet.mk [JWKKey.mk "k1" "RSA" "n" "e" "RS256" "sig"]))
        5000)
      "tok" "team" "aud1" (AccessState.mk none 0 0)).1 = none :=
  ⟨⟨rfl, rfl, by decide, by decide, by decide⟩,
    C10_empty_email_rejected
      (AccessEnv.mk
        (fun _ => some (Decoded.mk (JWTHeader.mk "k1" "RS256" "JWT")
          (JWTPayload.mk (some "") "https://team.cloudflareaccess.com"
            (some ["aud1"]) 5 0 "s") "hp" [1]))
        (fun _ _ _ => true)
        (fun _ => some (JWKSet.mk [JWKKey.mk "k1" "RSA" "n" "e" "RS256" "sig"]))
        5000)
      "tok" "team" "aud1" (AccessState.mk none 0 0)
      (Decoded.mk (JWTHeader.mk "k1" "RS256" "JWT")
        (JWTPayload.mk (some "") "https://team.cloudflareaccess.com"
          (some ["aud1"]) 5 0 "s") "hp" [1])
      rfl rfl (fun _ => rfl) rfl (by decide) (by decide) (Or.inr rfl)⟩

/-- C9: after the auth middleware runs, `user` is non-null exactly when the
request carried a (non-empty, per JavaScript truthiness) session cookie
whose token `getSession` resolves; a present cookie that fails to resolve
clears the stale cookie and continues unauthenticated; an absent cookie
continues unauthenticated without touching the cookie. -/
theorem C9_auth_middleware_spec (db : DB) (now : Int) (cookie : Option String) :
    ((authMiddleware db now cookie).user.isSome ↔
      ∃ sid r, cookie = some sid ∧ sid ≠ "" ∧ getSession db now sid = some r) ∧
    (∀ sid, cookie = some sid → sid ≠ "" → getSession db now sid = none →
      authMiddleware db now cookie = AuthResult.mk none none true) ∧
    (cookie = none → authMiddleware db now cookie = AuthResult.mk none none false) ∧
    (∀ sid r, cookie = some sid → sid ≠ "" → getSession db now sid = some r →
      authMiddleware db now cookie = AuthResult.mk (some r.2) (some r.1) false) := by
  cases cookie with
  | none =>
    refine ⟨by simp [authMiddleware], ?_, fun _ => rfl, ?_⟩
    · intro sid h
      exact absurd h (by simp)
    · intro sid r h
      exact absurd h (by simp)
  | some sid =>
    by_cases hs : sid = ""
    · subst hs
      refine ⟨?_, ?_, ?_, ?_⟩
      · simp only [authMiddleware, if_pos rfl]
        constructor
        · intro h
          exact absurd h (by simp)
        · rintro ⟨sid2, r, hEq, hne, _⟩
          exact absurd (Option.some.inj hEq).symm hne
      · intro sid2 hEq hne
        exact absurd (Option.some.inj hEq).symm hne
      · intro h
        exact absurd h (by simp)
      · intro sid2 r hEq hne
        exact absurd (Option.some.inj hEq).symm hne
    · cases hg : getSession db now sid with
      | none =>
        have hmw : authMiddleware db now (some sid) = AuthResult.mk none none true := by
          simp only [authMiddleware, if_neg hs, hg]
        refine ⟨?_, fun _ _ _ _ => hmw, by simp, ?_⟩
        · rw [hmw]
          simp only [Option.isSome_none, Bool.false_eq_true, false_iff]
          rintro ⟨sid2, r, hEq, hne, hres⟩
          rw [← Option.some.inj hEq] at hres
          rw [hg] at hres
          exact absurd hres (by simp)
        · intro sid2 r hEq hne hres
          rw [← Option.some.inj hEq, hg] at hres
          exact absurd hres (by simp)
      | some r =>
        have hmw : authMiddleware db now (some sid) =
            AuthResult.mk (some r.2) (some r.1) false := by
          simp only [authMiddleware, if_neg hs, hg]
        refine ⟨?_, ?_, by simp, ?_⟩
        · rw [hmw]
          simp only [Option.isSome_some, true_iff]
          exact ⟨sid, r, rfl, hs, hg⟩
        · intro sid2 hEq hne hres
          rw [← Option.some.inj hEq, hg] at hres
          exact absurd hres (by simp)
        · intro sid2 r2 hEq hne hres
          rw [← Option.some.inj hEq, hg] at hres
          rw [hmw, Option.some.inj hres]
end HabitTracker
